import Mathlib

/-!
# Verification of the config-guard extractor of `src/index.js`

This file gives a shallow embedding of the "Config Guard Lite" extractor
implemented in `src/index.js` of the repository: the per-file
indentation-sensitive scanner (`parseConfigGuardFile` / `handleConfigKey`),
the two candidate-file collectors (`collectRegistryPacks`,
`collectLocalConfigGuardPacks`) and the top-level aggregation
(`summarizeConfigGuardLite`).  JavaScript strings are modelled as Lean
`String` (character based; the inputs of interest are ASCII so JS UTF-16
index arithmetic coincides with character indices).  JS numbers produced by
`Number(...)` are modelled as exact rationals, with the non-finite results
(`NaN`, `Infinity`) mapped to `none`, because the only consumer of these
numbers is the `Number.isFinite`-guarded comparison `entry.last > entry.max`.
Filesystem access is modelled by explicit data (directory trees and a
`String → Option String` read function); a `none` read models a thrown
`readFileSync`.
-/

set_option maxRecDepth 4000

namespace ConfigGuard

/-! ## Character and string helpers (JS primitives) -/

/-- JS `s.startsWith(pre)` (character based; ASCII inputs). -/
def jsStartsWith (s pre : String) : Bool :=
  pre.toList.isPrefixOf s.toList

/-- JS `s.endsWith(post)` (character based; ASCII inputs). -/
def jsEndsWith (s post : String) : Bool :=
  post.toList.reverse.isPrefixOf s.toList.reverse

/-- JS `s.slice(0, n)` for `0 ≤ n` (character based). -/
def jsTake (s : String) (n : Nat) : String :=
  String.mk (s.toList.take n)

/-- JS `s.slice(n)` for `0 ≤ n` (character based). -/
def jsDrop (s : String) (n : Nat) : String :=
  String.mk (s.toList.drop n)

/-- JS `s.slice(0, -n)` (character based): drop the last `n` characters. -/
def jsDropRight (s : String) (n : Nat) : String :=
  String.mk (s.toList.take (s.toList.length - n))

/-- The whitespace class used by JS `String.prototype.trim` and the regex
`\s`, restricted to the characters that can actually occur in the inputs we
model (ASCII whitespace plus NBSP). -/
def jsIsWhitespace (c : Char) : Bool :=
  c = ' ' || c = '\t' || c = '\n' || c = '\r' ||
  c = Char.ofNat 11 || c = Char.ofNat 12 || c = Char.ofNat 160

/-- `\w` of JS regexes (no unicode flag): ASCII letters, digits, underscore. -/
def isWordChar (c : Char) : Bool :=
  c.isAlphanum || c = '_'

def trimLeftList (cs : List Char) : List Char :=
  cs.dropWhile jsIsWhitespace

/-- JS `String.prototype.trim`. -/
def jsTrim (s : String) : String :=
  String.mk ((trimLeftList (trimLeftList s.toList).reverse).reverse)

/-- Length of the leading-whitespace run: `rawLine.match(/^\s*/)[0].length`. -/
def leadingWSCount (s : String) : Nat :=
  (s.toList.takeWhile jsIsWhitespace).length

/-- `text.split(/\r?\n/)` on a character list: split at each `\n` or `\r\n`
(a lone `\r` stays inside its line). -/
def splitLinesAux : List Char → List Char → List String
  | [], acc => [String.mk acc.reverse]
  | '\r' :: '\n' :: rest, acc => String.mk acc.reverse :: splitLinesAux rest []
  | '\n' :: rest, acc => String.mk acc.reverse :: splitLinesAux rest []
  | c :: rest, acc => splitLinesAux rest (c :: acc)

/-- JS `text.split(/\r?\n/)`. -/
def splitLines (text : String) : List String :=
  splitLinesAux text.toList []

/-- Try to match `pat` at the head of `cs`; on success return the remainder. -/
def matchesAt : List Char → List Char → Option (List Char)
  | [], rest => some rest
  | _ :: _, [] => none
  | p :: ps, c :: cs => if c = p then matchesAt ps cs else none

def containsSubstringAux (pat : List Char) : List Char → Bool
  | [] => (matchesAt pat []).isSome
  | c :: rest => (matchesAt pat (c :: rest)).isSome || containsSubstringAux pat rest

/-- Plain (boundary-free) substring test: does `text` contain `pat`?
This is the admission test as the specification words it. -/
def containsSubstring (pat text : String) : Bool :=
  containsSubstringAux pat.toList text.toList

/-- Does `config_guard_spec` occur at the head of `cs` with a `\b` word
boundary on both sides (`prev` is the character just before `cs`, if any)? -/
def markerAt (prev : Option Char) (cs : List Char) : Bool :=
  match matchesAt "config_guard_spec".toList cs with
  | none => false
  | some rest =>
    (match prev with
     | some p => !isWordChar p
     | none => true) &&
    (match rest with
     | c :: _ => !isWordChar c
     | [] => true)

def hasMarkerAux (prev : Option Char) : List Char → Bool
  | [] => markerAt prev []
  | c :: rest => markerAt prev (c :: rest) || hasMarkerAux (some c) rest

/-- The admission test of `parseConfigGuardFile`:
`/\bconfig_guard_spec\b/.test(text)`. -/
def hasMarker (text : String) : Bool :=
  hasMarkerAux none text.toList

/-- First index of `:` in a character list (JS `indexOf(':')`, with `none`
for the JS result `-1`). -/
def idxOfColonAux : List Char → Nat → Option Nat
  | [], _ => none
  | c :: rest, i => if c = ':' then some i else idxOfColonAux rest (i + 1)

def lineIndexOfColon (s : String) : Option Nat :=
  idxOfColonAux s.toList 0

/-- JS falsiness of a nullable string (`!state.packId`): `null` and the
empty string are falsy, every other string is truthy. -/
def jsFalsy : Option String → Bool
  | none => true
  | some s => s == ""

/-- `state.packId || fallback`: take the stored string unless it is falsy. -/
def jsOr (o : Option String) (fallback : String) : String :=
  match o with
  | none => fallback
  | some s => if s = "" then fallback else s

/-- `/false/i.test(value)`: case-insensitive substring search for `false`. -/
def testFalseCI (value : String) : Bool :=
  containsSubstringAux "false".toList (value.toList.map Char.toLower)

/-! ## `Number(value)` -/

def digitsVal (base : Nat) (ds : List Char) : Nat :=
  ds.foldl (fun acc c =>
    acc * base +
      (if c.isDigit then c.toNat - 48
       else if 'a' ≤ c && c ≤ 'f' then c.toNat - 87
       else if 'A' ≤ c && c ≤ 'F' then c.toNat - 55
       else 0)) 0

def isHexDigit (c : Char) : Bool :=
  c.isDigit || ('a' ≤ c && c ≤ 'f') || ('A' ≤ c && c ≤ 'F')

def isBinDigit (c : Char) : Bool := c = '0' || c = '1'

def isOctDigit (c : Char) : Bool := '0' ≤ c && c ≤ '7'

/-- Largest finite double, approximated by its overflow threshold `2^1024`:
values at least this large become `Infinity` in JS and are therefore
non-finite (modelled as `none`). -/
def floatOverflow : ℚ := ((2 ^ 1024 : ℕ) : ℚ)

/-- Decimal part of the grammar accepted by JS `Number`: optional sign, then
`digits [. digits] | . digits`, then an optional `e`/`E` exponent, or the
literal `Infinity`.  The value is computed exactly as a rational; JS float64
rounding is not modelled (the extractor only compares small integers). -/
def parseDecimal (cs : List Char) : Option ℚ :=
  let sgn : Bool × List Char :=
    match cs with
    | '+' :: r => (false, r)
    | '-' :: r => (true, r)
    | r => (false, r)
  if sgn.2 = "Infinity".toList then none
  else
    let ip := sgn.2.takeWhile Char.isDigit
    let afterIp := sgn.2.dropWhile Char.isDigit
    let fpPair : List Char × List Char :=
      match afterIp with
      | '.' :: r => (r.takeWhile Char.isDigit, r.dropWhile Char.isDigit)
      | r => ([], r)
    let fp := fpPair.1
    if ip = [] ∧ fp = [] then none
    else
      let expPart : Option Int :=
        match fpPair.2 with
        | [] => some 0
        | e :: r =>
          if e = 'e' ∨ e = 'E' then
            match r with
            | '+' :: ds => if ds ≠ [] ∧ ds.all Char.isDigit then some (digitsVal 10 ds : Nat) else none
            | '-' :: ds => if ds ≠ [] ∧ ds.all Char.isDigit then some (-(digitsVal 10 ds : Nat) : Int) else none
            | ds => if ds ≠ [] ∧ ds.all Char.isDigit then some (digitsVal 10 ds : Nat) else none
          else none
      match expPart with
      | none => none
      | some e =>
        let mantNat := digitsVal 10 (ip ++ fp)
        -- exponent clamps: beyond ±400 a nonzero mantissa overflows to
        -- Infinity (non-finite, `none`) or underflows to 0 in JS
        if mantNat = 0 then some 0
        else if e > 400 then none
        else if e < -400 then some 0
        else
          -- value = ±mant * 10^(e - |fp|), built as one normalized fraction
          -- (integer arithmetic only, so it evaluates inside the kernel)
          let scale : Int := e - fp.length
          let mag : Int :=
            (mantNat : Int) * ((10 ^ (if 0 ≤ scale then scale.toNat else 0) : ℕ) : Int)
          let num : Int := if sgn.1 then -mag else mag
          let den : Nat := 10 ^ (if 0 ≤ scale then 0 else (-scale).toNat)
          let q : ℚ := mkRat num den
          if q ≤ -floatOverflow ∨ floatOverflow ≤ q then none else some q

/-- Model of JS `Number(value)` composed with the `Number.isFinite` guard
used at the staleness check: `some q` when the string converts to a finite
number of value `q`, `none` when it converts to `NaN` or `±Infinity`.
The empty (already trimmed) string converts to `0`; `0x`/`0o`/`0b` prefixes
give unsigned integer literals. -/
def parseNumber (s : String) : Option ℚ :=
  let cs := s.toList
  if cs = [] then some 0
  else
    let core : Option ℚ :=
      match cs with
      | '0' :: x :: rest =>
        if x = 'x' ∨ x = 'X' then
          if rest ≠ [] ∧ rest.all isHexDigit then some (digitsVal 16 rest : ℚ) else none
        else if x = 'b' ∨ x = 'B' then
          if rest ≠ [] ∧ rest.all isBinDigit then some (digitsVal 2 rest : ℚ) else none
        else if x = 'o' ∨ x = 'O' then
          if rest ≠ [] ∧ rest.all isOctDigit then some (digitsVal 8 rest : ℚ) else none
        else parseDecimal cs
      | _ => parseDecimal cs
    match core with
    | none => none
    | some q => if q ≤ -floatOverflow ∨ floatOverflow ≤ q then none else some q

/-! ## Data model of the scanner -/

/-- Role of a list-item context frame (`ctx.type` in the source:
`'env'`, `'rotation'`, or absent). -/
inductive CtxType where
  | env
  | rotation
deriving DecidableEq, Repr

/-- One rotation entry `{ last: ..., max: ... }`; `none` stands for the JS
values (`null`, `NaN`, `Infinity`) that `Number.isFinite` rejects. -/
structure Rot where
  last : Option ℚ
  max : Option ℚ
deriving DecidableEq, Repr

/-- The `ctx.rotation` field: either an alias of entry `i` of the shared
`rotationEntries` list (set when a list item under `rotations` is opened), or
a detached entry allocated by `handleConfigKey` on a frame that merely has
the key `rotations-item` (that object is never pushed to `rotationEntries`). -/
inductive RotRef where
  | shared (i : Nat)
  | detached (r : Rot)
deriving DecidableEq, Repr

/-- A context frame `{ key, indent, type?, rotation? }`. -/
structure Ctx where
  key : String
  indent : Nat
  ctype : Option CtxType := none
  rot : Option RotRef := none
deriving DecidableEq, Repr

/-- The parser state object of `parseConfigGuardFile`. `namespace` is a Lean
keyword, so that field is called `nspace` here. -/
structure PState where
  packId : Option String := none
  packVersion : Option String := none
  nspace : Option String := none
  environment : Option String := none
  missingEnv : Nat := 0
deriving DecidableEq, Repr

/-- The whole mutable state of one file scan.  The JS `contexts` array has
its top at the end and is accessed only by `push`, `pop` and last-element
reads, so it is modelled head-first: the head of `contexts` is the top of
the stack. -/
structure ScanState where
  contexts : List Ctx := []
  rotationEntries : List Rot := []
  state : PState := {}
  envCount : Nat := 0
  secretsCount : Nat := 0
deriving DecidableEq, Repr

/-- The summary produced for one qualifying file. -/
structure PackGuardSummary where
  id : String
  version : String
  nspace : Option String
  environment : Option String
  envCount : Nat
  missingEnv : Nat
  secretsCount : Nat
  staleSecrets : Nat
deriving DecidableEq, Repr

/-- The aggregate report of `summarizeConfigGuardLite`. -/
structure AggregateReport where
  totalPacks : Nat
  missingEnv : Nat
  staleSecrets : Nat
  packs : List PackGuardSummary
deriving DecidableEq, Repr

/-! ## The field router: `handleConfigKey` -/

/-- Acting-frame test of the `present` rule:
`current?.key === 'required_env-item' || current?.type === 'env'`. -/
def actingEnv : Option Ctx → Bool
  | some c => c.key == "required_env-item" || c.ctype == some CtxType.env
  | none => false

/-- Acting-frame test of the two rotation rules:
`current?.key === 'rotations-item' || current?.type === 'rotation'`. -/
def actingRot : Option Ctx → Bool
  | some c => c.key == "rotations-item" || c.ctype == some CtxType.rotation
  | none => false

/-- Write one field of a rotation entry; `isLast = true` is the
`last_rotated_days` rule, `isLast = false` the `max_days` rule.  The source
assigns `Number(value)` unconditionally, so a parse failure stores the
non-finite marker `none` (overwriting any previous value). -/
def updRot (isLast : Bool) (value : String) (r : Rot) : Rot :=
  if isLast then { r with last := parseNumber value }
  else { r with max := parseNumber value }

/-- `current.rotation = current.rotation || { last: null, max: null };
current.rotation.X = Number(value)` on the top frame.  A shared reference
mutates the aliased entry of `rotationEntries`; otherwise the frame gets a
detached entry. -/
def applyRotField (contexts : List Ctx) (entries : List Rot)
    (isLast : Bool) (value : String) : List Ctx × List Rot :=
  match contexts with
  | [] => ([], entries)
  | c :: rest =>
    match c.rot with
    | some (RotRef.shared i) =>
      (c :: rest, entries.set i (updRot isLast value (entries.getD i ⟨none, none⟩)))
    | some (RotRef.detached r) =>
      ({ c with rot := some (RotRef.detached (updRot isLast value r)) } :: rest, entries)
    | none =>
      ({ c with rot := some (RotRef.detached (updRot isLast value ⟨none, none⟩)) } :: rest, entries)

/-- The four identity-field rules of `handleConfigKey`.  The `!state.X`
guards are JS falsiness tests, so a stored empty string does not block a
later write. -/
def applyIdentity (state : PState) (key value : String) (keys : List String) : PState :=
  let s1 := if key = "id" ∧ keys.contains "pack" ∧ jsFalsy state.packId then
    { state with packId := some value } else state
  let s2 := if key = "version" ∧ keys.contains "pack" ∧ jsFalsy s1.packVersion then
    { s1 with packVersion := some value } else s1
  let s3 := if key = "namespace" ∧ keys.contains "spec" ∧ jsFalsy s2.nspace then
    { s2 with nspace := some value } else s2
  if key = "environment" ∧ keys.contains "spec" ∧ jsFalsy s3.environment then
    { s3 with environment := some value } else s3

/-- The field router.  In the source the optional `forcedCtx` argument is
passed exactly at the inline list-item call site, where it is the frame that
was just pushed — i.e. the top of `contexts` — so in every call the acting
frame `current` is the top of the stack (`contexts.head?` here, `none` when
the stack is empty). -/
def handleConfigKey (state : PState) (key value : String)
    (contexts : List Ctx) (entries : List Rot) : PState × List Ctx × List Rot :=
  let current := contexts.head?
  let keys := contexts.map fun c => c.key
  let s1 := applyIdentity state key value keys
  let s2 := if actingEnv current ∧ key = "present" ∧ testFalseCI value then
    { s1 with missingEnv := s1.missingEnv + 1 } else s1
  let ce1 := if actingRot current ∧ key = "last_rotated_days" then
    applyRotField contexts entries true value else (contexts, entries)
  let ce2 := if actingRot current ∧ key = "max_days" then
    applyRotField ce1.1 ce1.2 false value else ce1
  (s2, ce2.1, ce2.2)

/-! ## The context-stack tracker and per-line step -/

/-- `while (contexts.length && indent <= contexts[contexts.length-1].indent)
contexts.pop()` (top of stack at the head). -/
def popFrames (indent : Nat) : List Ctx → List Ctx
  | [] => []
  | c :: rest => if indent ≤ c.indent then popFrames indent rest else c :: rest

/-- One iteration of the line loop of `parseConfigGuardFile`. -/
def processLine (st : ScanState) (rawLine : String) : ScanState :=
  let indent := leadingWSCount rawLine
  let line := jsTrim rawLine
  if line = "" ∨ jsStartsWith line "#" then st
  else
    let contexts := popFrames indent st.contexts
    if jsEndsWith line ":" ∧ ¬ jsStartsWith line "- " then
      { st with contexts := { key := jsTrim (jsDropRight line 1), indent := indent } :: contexts }
    else if jsStartsWith line "- " then
      let parent := contexts.head?.map fun c => c.key
      let content := jsTrim (jsDrop line 2)
      let baseKey := match parent with
        | some p => p ++ "-item"
        | none => "list-item"
      let stepped :=
        if parent = some "required_env" then
          { st with envCount := st.envCount + 1,
                    contexts := { key := baseKey, indent := indent,
                                  ctype := some CtxType.env } :: contexts }
        else if parent = some "rotations" then
          { st with secretsCount := st.secretsCount + 1,
                    rotationEntries := st.rotationEntries ++ [⟨none, none⟩],
                    contexts := { key := baseKey, indent := indent,
                                  ctype := some CtxType.rotation,
                                  rot := some (RotRef.shared st.rotationEntries.length) } :: contexts }
        else
          { st with contexts := { key := baseKey, indent := indent } :: contexts }
      if content = "" then stepped
      else
        match lineIndexOfColon content with
        | none => stepped
        | some idx =>
          let key := jsTrim (jsTake content idx)
          let value := jsTrim (jsDrop content (idx + 1))
          let r := handleConfigKey stepped.state key value stepped.contexts stepped.rotationEntries
          { stepped with state := r.1, contexts := r.2.1, rotationEntries := r.2.2 }
    else
      match lineIndexOfColon line with
      | none => { st with contexts := contexts }
      | some idx =>
        let key := jsTrim (jsTake line idx)
        let value := jsTrim (jsDrop line (idx + 1))
        let r := handleConfigKey st.state key value contexts st.rotationEntries
        { st with state := r.1, contexts := r.2.1, rotationEntries := r.2.2 }

def scanLines (st : ScanState) (lines : List String) : ScanState :=
  lines.foldl processLine st

/-- Staleness of one rotation entry:
`Number.isFinite(entry.last) && Number.isFinite(entry.max) && entry.last > entry.max`. -/
def stalePred (e : Rot) : Bool :=
  match e.last, e.max with
  | some a, some b => decide (b < a)
  | _, _ => false

/-- `path.basename`: the part after the last `/`. -/
def basename (p : String) : String :=
  String.mk (p.toList.foldl (fun acc c => if c = '/' then [] else acc ++ [c]) [])

/-- `name.replace(/\.(ya?ml)$/i, '')`. -/
def stripMarkupExt (name : String) : String :=
  let lower := String.mk (name.toList.map Char.toLower)
  if jsEndsWith lower ".yaml" then jsDropRight name 5
  else if jsEndsWith lower ".yml" then jsDropRight name 4
  else name

/-- The per-file summarizer applied to file contents (everything of
`parseConfigGuardFile` after the `readFileSync`). -/
def parseConfigGuardText (filePath text : String) : Option PackGuardSummary :=
  if !hasMarker text then none
  else
    let st := scanLines {} (splitLines text)
    some {
      id := jsOr st.state.packId (stripMarkupExt (basename filePath)),
      version := jsOr st.state.packVersion "0.0.0",
      nspace := st.state.nspace,
      environment := st.state.environment,
      envCount := st.envCount,
      missingEnv := st.state.missingEnv,
      secretsCount := st.secretsCount,
      staleSecrets := (st.rotationEntries.filter stalePred).length }

/-- `parseConfigGuardFile(filePath)`: a failed `readFileSync` (modelled by
`readFile filePath = none`) yields `null`. -/
def parseConfigGuardFile (readFile : String → Option String) (filePath : String) :
    Option PackGuardSummary :=
  match readFile filePath with
  | none => none
  | some text => parseConfigGuardText filePath text

/-! ## Repository scanner -/

/-- `path.join(dir, name)` (paths are opaque tokens in this model, so the
separator is always `/`). -/
def pathJoin (dir name : String) : String := dir ++ "/" ++ name

/-- A `withFileTypes` directory entry of `readdirSync`. -/
inductive EntryKind where
  | file
  | directory
  | other
deriving DecidableEq, Repr

structure DirEntry where
  name : String
  kind : EntryKind
deriving DecidableEq, Repr

/-- `collectLocalConfigGuardPacks(root)`: the immediate children of the flat
local-packs directory that are files whose name ends in `.yaml`.  `none` for
the listing models `fs.existsSync(root)` being false. -/
def collectLocalConfigGuardPacks (root : String) (listing : Option (List DirEntry)) :
    List String :=
  match listing with
  | none => []
  | some entries =>
    entries.filterMap fun e =>
      if e.kind = EntryKind.file ∧ jsEndsWith e.name ".yaml" then
        some (pathJoin root e.name)
      else none

/-- A filesystem subtree as seen by the registry walk.  A directory carries
a `readable` flag: `readdirSync` on an unreadable directory throws and the
walk skips it. -/
inductive FsNode where
  | file (name : String)
  | dir (name : String) (readable : Bool) (children : List FsNode)
  | other (name : String)

mutual

def nodeWeight : FsNode → Nat
  | FsNode.file _ => 1
  | FsNode.other _ => 1
  | FsNode.dir _ _ cs => 1 + listWeight cs

def listWeight : List FsNode → Nat
  | [] => 0
  | c :: cs => nodeWeight c + listWeight cs

end

def stackWeight : List (String × FsNode) → Nat
  | [] => 0
  | p :: rest => nodeWeight p.2 + stackWeight rest

/-- The subdirectory entries of a directory listing, paired with their full
paths, in `readdirSync` order (`stack.push(full)` per directory entry). -/
def subdirs (dirPath : String) (cs : List FsNode) : List (String × FsNode) :=
  cs.filterMap fun c =>
    match c with
    | FsNode.dir n _ _ => some (pathJoin dirPath n, c)
    | _ => none

/-- The `pack.yaml` file entries of a directory listing, as full paths, in
`readdirSync` order. -/
def packFiles (dirPath : String) (cs : List FsNode) : List String :=
  cs.filterMap fun c =>
    match c with
    | FsNode.file n => if n = "pack.yaml" then some (pathJoin dirPath n) else none
    | _ => none

theorem nodeWeight_pos (n : FsNode) : 1 ≤ nodeWeight n := by
  cases n <;> simp [nodeWeight]

theorem stackWeight_append (a b : List (String × FsNode)) :
    stackWeight (a ++ b) = stackWeight a + stackWeight b := by
  induction a with
  | nil => simp [stackWeight]
  | cons p rest ih => simp [stackWeight, ih]; omega

theorem stackWeight_reverse (a : List (String × FsNode)) :
    stackWeight a.reverse = stackWeight a := by
  induction a with
  | nil => rfl
  | cons p rest ih =>
    simp [stackWeight, List.reverse_cons, stackWeight_append, ih]
    omega

theorem subdirs_weight (p : String) (cs : List FsNode) :
    stackWeight (subdirs p cs) ≤ listWeight cs := by
  induction cs with
  | nil => simp [subdirs, stackWeight, listWeight]
  | cons c rest ih =>
    cases c with
    | dir n r children =>
      simp only [subdirs, List.filterMap_cons] at *
      simp only [stackWeight, listWeight]
      omega
    | file n =>
      simp only [subdirs, List.filterMap_cons] at *
      simp only [listWeight]
      omega
    | other n =>
      simp only [subdirs, List.filterMap_cons] at *
      simp only [listWeight]
      omega

/-- The iterative depth-first walk of `collectRegistryPacks`: the JS `stack`
array pops from the end, so it is modelled head-first (head = next popped);
pushing the subdirectories of a listing therefore prepends them reversed. -/
def collectRegistryAux : List (String × FsNode) → List String → List String
  | [], files => files
  | (dirPath, FsNode.dir _ readable children) :: rest, files =>
    if readable then
      collectRegistryAux ((subdirs dirPath children).reverse ++ rest)
        (files ++ packFiles dirPath children)
    else
      collectRegistryAux rest files
  | (_, FsNode.file _) :: rest, files => collectRegistryAux rest files
  | (_, FsNode.other _) :: rest, files => collectRegistryAux rest files
termination_by stack _ => stackWeight stack
decreasing_by
  · simp only [stackWeight, stackWeight_append, stackWeight_reverse, nodeWeight]
    have := subdirs_weight dirPath children
    omega
  · simp only [stackWeight, nodeWeight]
    omega
  · simp only [stackWeight, nodeWeight]
    omega
  · simp only [stackWeight, nodeWeight]
    omega

/-- `collectRegistryPacks(root)`: every file named `pack.yaml` anywhere under
the registry root, via the explicit-stack walk.  A `none` tree models
`fs.existsSync(root)` being false. -/
def collectRegistryPacks (rootPath : String) (root : Option FsNode) : List String :=
  match root with
  | none => []
  | some node => collectRegistryAux [(rootPath, node)] []

/-! ## Aggregation -/

/-- The deduplication key `${summary.id}@${summary.version}`. -/
def dedupKey (s : PackGuardSummary) : String := s.id ++ "@" ++ s.version

/-- The dedup loop of `summarizeConfigGuardLite` (the `seen` set is the list
of keys added so far). -/
def dedupAux (seen : List String) : List PackGuardSummary → List PackGuardSummary
  | [] => []
  | s :: rest =>
    if seen.contains (dedupKey s) then dedupAux seen rest
    else s :: dedupAux (dedupKey s :: seen) rest

def dedupSummaries (l : List PackGuardSummary) : List PackGuardSummary :=
  dedupAux [] l

/-- Specification-side description of the deduplication: keep each summary
whose key has not occurred before it, dropping every later summary with the
same key. -/
def keepFirstByKey : List PackGuardSummary → List PackGuardSummary
  | [] => []
  | s :: rest => s :: keepFirstByKey (rest.filter fun t => dedupKey t ≠ dedupKey s)
termination_by l => l.length
decreasing_by
  simp only [List.length_cons]
  exact Nat.lt_succ_of_le (List.length_filter_le _ _)

/-- The sort key `pack.missingEnv + pack.staleSecrets`. -/
def severity (s : PackGuardSummary) : Nat := s.missingEnv + s.staleSecrets

/-- Stable insertion (earlier elements come first on ties) used to model the
stable descending `summaries.sort((a, b) => sev b - sev a)`. -/
def insertSummary (s : PackGuardSummary) : List PackGuardSummary → List PackGuardSummary
  | [] => [s]
  | t :: ts => if severity t ≤ severity s then s :: t :: ts else t :: insertSummary s ts

/-- Stable descending sort by severity; a stable sort is determined by its
comparator, so this agrees with the JS engine sort. -/
def sortBySeverity (l : List PackGuardSummary) : List PackGuardSummary :=
  l.foldr insertSummary []

/-- The filesystem as consumed by `summarizeConfigGuardLite`: the subtree at
`.apx/registry` (if it exists), the listing of `packs/config-guard` (if it
exists), and the file contents. -/
structure FS where
  registry : Option FsNode
  localPacks : Option (List DirEntry)
  readFile : String → Option String

/-- The candidate files in scan order: registry-sourced first, then local. -/
def candidateFiles (fs : FS) : List String :=
  collectRegistryPacks ".apx/registry" fs.registry ++
  collectLocalConfigGuardPacks "packs/config-guard" fs.localPacks

/-- The deduplicated summaries in scan order.  The two source loops fuse
parsing and deduplication; over the concatenated candidate list that is
exactly dedup after filterMap. -/
def qualifyingSummaries (fs : FS) : List PackGuardSummary :=
  dedupSummaries ((candidateFiles fs).filterMap (parseConfigGuardFile fs.readFile))

/-- `summarizeConfigGuardLite()`: `null` when no summaries qualify,
otherwise the sorted report with the summed totals. -/
def summarizeConfigGuardLite (fs : FS) : Option AggregateReport :=
  let summaries := qualifyingSummaries fs
  if summaries.isEmpty then none
  else
    let sorted := sortBySeverity summaries
    some { totalPacks := sorted.length,
           missingEnv := (sorted.map fun s => s.missingEnv).sum,
           staleSecrets := (sorted.map fun s => s.staleSecrets).sum,
           packs := sorted }

/-- Strictly-decreasing indentation from the head (= top of stack): the JS
stack has strictly increasing `indent` from bottom to top. -/
def ctxInv (cs : List Ctx) : Prop :=
  (cs.map fun c => c.indent).Pairwise (fun a b => b < a)

/-! ## Helper lemmas about the step functions -/

theorem getD_set_self {α : Type} (l : List α) (i : Nat) (a d : α)
    (h : i < l.length) : (l.set i a).getD i d = a := by
  induction l generalizing i with
  | nil => simp at h
  | cons x xs ih =>
    cases i with
    | zero => rfl
    | succ j =>
      simp only [List.set, List.getD, List.get?]
      simpa [List.getD] using ih j (by simpa using h)

theorem applyRotField_length (cs : List Ctx) (es : List Rot) (b : Bool) (v : String) :
    (applyRotField cs es b v).2.length = es.length := by
  cases cs with
  | nil => rfl
  | cons c rest =>
    cases h : c.rot with
    | none => simp [applyRotField, h]
    | some r =>
      cases r with
      | shared i => simp [applyRotField, h]
      | detached r0 => simp [applyRotField, h]

theorem applyRotField_map_indent (cs : List Ctx) (es : List Rot) (b : Bool) (v : String) :
    ((applyRotField cs es b v).1.map fun c => c.indent) = cs.map fun c => c.indent := by
  cases cs with
  | nil => rfl
  | cons c rest =>
    cases h : c.rot with
    | none => simp [applyRotField, h]
    | some r =>
      cases r with
      | shared i => simp [applyRotField, h]
      | detached r0 => simp [applyRotField, h]

theorem handleConfigKey_entries_length (s : PState) (k v : String)
    (cs : List Ctx) (es : List Rot) :
    (handleConfigKey s k v cs es).2.2.length = es.length := by
  unfold handleConfigKey
  dsimp only
  split_ifs <;> simp [applyRotField_length]

theorem handleConfigKey_map_indent (s : PState) (k v : String)
    (cs : List Ctx) (es : List Rot) :
    ((handleConfigKey s k v cs es).2.1.map fun c => c.indent) = cs.map fun c => c.indent := by
  unfold handleConfigKey
  dsimp only
  split_ifs <;> simp [applyRotField_map_indent]

theorem applyIdentity_missingEnv (s : PState) (k v : String) (keys : List String) :
    (applyIdentity s k v keys).missingEnv = s.missingEnv := by
  unfold applyIdentity
  dsimp only
  split_ifs <;> rfl

/-- A non-falsy identity field blocks its own rewrite rule and is untouched
by the other rules. -/
theorem applyIdentity_persist (s : PState) (k v : String) (keys : List String)
    (w : String) (hw : w ≠ "") :
    (s.packId = some w → (applyIdentity s k v keys).packId = some w) ∧
    (s.packVersion = some w → (applyIdentity s k v keys).packVersion = some w) ∧
    (s.nspace = some w → (applyIdentity s k v keys).nspace = some w) ∧
    (s.environment = some w → (applyIdentity s k v keys).environment = some w) := by
  unfold applyIdentity
  dsimp only
  split_ifs <;> refine ⟨fun h => ?_, fun h => ?_, fun h => ?_, fun h => ?_⟩ <;>
    simp_all [jsFalsy]

theorem handleConfigKey_missingEnv (s : PState) (k v : String)
    (cs : List Ctx) (es : List Rot) :
    (handleConfigKey s k v cs es).1.missingEnv =
      s.missingEnv + (if actingEnv cs.head? ∧ k = "present" ∧ testFalseCI v then 1 else 0) := by
  unfold handleConfigKey
  dsimp only
  split_ifs <;> simp [applyIdentity_missingEnv]

theorem handleConfigKey_persist (s : PState) (k v : String)
    (cs : List Ctx) (es : List Rot) (w : String) (hw : w ≠ "") :
    (s.packId = some w → (handleConfigKey s k v cs es).1.packId = some w) ∧
    (s.packVersion = some w → (handleConfigKey s k v cs es).1.packVersion = some w) ∧
    (s.nspace = some w → (handleConfigKey s k v cs es).1.nspace = some w) ∧
    (s.environment = some w → (handleConfigKey s k v cs es).1.environment = some w) := by
  have hid := applyIdentity_persist s k v (cs.map fun c => c.key) w hw
  unfold handleConfigKey
  dsimp only
  split_ifs <;>
    exact ⟨fun h => hid.1 h, fun h => hid.2.1 h, fun h => hid.2.2.1 h,
           fun h => hid.2.2.2 h⟩

/-! ## Per-line and whole-scan invariants -/

theorem processLine_secrets (st : ScanState) (l : String)
    (h : st.secretsCount = st.rotationEntries.length) :
    (processLine st l).secretsCount = (processLine st l).rotationEntries.length := by
  unfold processLine
  dsimp only
  split_ifs <;> (try split) <;> simp_all [handleConfigKey_entries_length]

theorem processLine_persist (st : ScanState) (l : String) (w : String) (hw : w ≠ "") :
    (st.state.packId = some w → (processLine st l).state.packId = some w) ∧
    (st.state.packVersion = some w → (processLine st l).state.packVersion = some w) ∧
    (st.state.nspace = some w → (processLine st l).state.nspace = some w) ∧
    (st.state.environment = some w → (processLine st l).state.environment = some w) := by
  unfold processLine
  dsimp only
  split_ifs <;> (try split) <;>
    refine ⟨fun h => ?_, fun h => ?_, fun h => ?_, fun h => ?_⟩ <;>
    first
      | exact h
      | simpa using (handleConfigKey_persist _ _ _ _ _ w hw).1 h
      | simpa using (handleConfigKey_persist _ _ _ _ _ w hw).2.1 h
      | simpa using (handleConfigKey_persist _ _ _ _ _ w hw).2.2.1 h
      | simpa using (handleConfigKey_persist _ _ _ _ _ w hw).2.2.2 h

theorem ctxInv_of_map_eq {cs cs' : List Ctx}
    (e : (cs'.map fun c => c.indent) = cs.map fun c => c.indent) (h : ctxInv cs) :
    ctxInv cs' := by
  unfold ctxInv at *
  rw [e]
  exact h

theorem ctxInv_cons (x : Ctx) (cs : List Ctx) (h : ctxInv cs)
    (hall : ∀ c ∈ cs, c.indent < x.indent) : ctxInv (x :: cs) := by
  unfold ctxInv at *
  simp only [List.map_cons, List.pairwise_cons]
  refine ⟨?_, h⟩
  intro b hb
  rw [List.mem_map] at hb
  obtain ⟨c, hc, rfl⟩ := hb
  exact hall c hc

theorem popFrames_suffix (i : Nat) (cs : List Ctx) : popFrames i cs <:+ cs := by
  induction cs with
  | nil => exact List.suffix_rfl
  | cons c rest ih =>
    unfold popFrames
    by_cases hc : i ≤ c.indent
    · simp only [hc, if_true]
      exact ih.trans (List.suffix_cons c rest)
    · simp only [hc, if_false]
      exact List.suffix_rfl

theorem ctxInv_popFrames (i : Nat) (cs : List Ctx) (h : ctxInv cs) :
    ctxInv (popFrames i cs) := by
  unfold ctxInv at *
  exact h.sublist (((popFrames_suffix i cs).sublist).map _)

theorem popFrames_filter (i : Nat) (cs : List Ctx) (h : ctxInv cs) :
    popFrames i cs = cs.filter fun c => decide (c.indent < i) := by
  induction cs with
  | nil => rfl
  | cons c rest ih =>
    have hrest : ctxInv rest := by
      unfold ctxInv at h ⊢
      simp only [List.map_cons, List.pairwise_cons] at h
      exact h.2
    have hall : ∀ b ∈ rest, b.indent < c.indent := by
      unfold ctxInv at h
      simp only [List.map_cons, List.pairwise_cons] at h
      intro b hb
      exact h.1 _ (List.mem_map_of_mem _ hb)
    unfold popFrames
    by_cases hc : i ≤ c.indent
    · have : (decide (c.indent < i)) = false := by simp; omega
      simp only [hc, if_true, List.filter_cons, this, Bool.false_eq_true, if_false]
      exact ih hrest
    · have hlt : c.indent < i := by omega
      have : (decide (c.indent < i)) = true := by simpa using hlt
      simp only [hc, if_false, List.filter_cons, this, if_true]
      congr 1
      symm
      rw [List.filter_eq_self]
      intro a ha
      simpa using Nat.lt_trans (hall a ha) hlt

theorem popFrames_lt (i : Nat) (cs : List Ctx) (h : ctxInv cs) :
    ∀ c ∈ popFrames i cs, c.indent < i := by
  rw [popFrames_filter i cs h]
  intro c hc
  rw [List.mem_filter] at hc
  simpa using hc.2

theorem processLine_ctxInv (st : ScanState) (l : String) (h : ctxInv st.contexts) :
    ctxInv (processLine st l).contexts := by
  have hpop := ctxInv_popFrames (leadingWSCount l) st.contexts h
  have hlt := popFrames_lt (leadingWSCount l) st.contexts h
  unfold processLine
  dsimp only
  split_ifs <;> (try split) <;> (try dsimp only) <;>
    first
      | exact h
      | exact hpop
      | exact ctxInv_cons _ _ hpop hlt
      | exact ctxInv_of_map_eq (handleConfigKey_map_indent _ _ _ _ _) (ctxInv_cons _ _ hpop hlt)
      | exact ctxInv_of_map_eq (handleConfigKey_map_indent _ _ _ _ _) hpop

theorem scanLines_secrets (lines : List String) :
    ∀ st : ScanState, st.secretsCount = st.rotationEntries.length →
      (scanLines st lines).secretsCount = (scanLines st lines).rotationEntries.length := by
  induction lines with
  | nil => exact fun st h => h
  | cons l ls ih => exact fun st h => ih _ (processLine_secrets st l h)

theorem scanLines_persist (lines : List String) (w : String) (hw : w ≠ "") :
    ∀ st : ScanState,
      (st.state.packId = some w → (scanLines st lines).state.packId = some w) ∧
      (st.state.packVersion = some w → (scanLines st lines).state.packVersion = some w) ∧
      (st.state.nspace = some w → (scanLines st lines).state.nspace = some w) ∧
      (st.state.environment = some w → (scanLines st lines).state.environment = some w) := by
  induction lines with
  | nil => exact fun st => ⟨fun h => h, fun h => h, fun h => h, fun h => h⟩
  | cons l ls ih =>
    intro st
    have hstep := processLine_persist st l w hw
    have hrest := ih (processLine st l)
    exact ⟨fun h => hrest.1 (hstep.1 h),
           fun h => hrest.2.1 (hstep.2.1 h),
           fun h => hrest.2.2.1 (hstep.2.2.1 h),
           fun h => hrest.2.2.2 (hstep.2.2.2 h)⟩

theorem scanLines_ctxInv (lines : List String) :
    ∀ st : ScanState, ctxInv st.contexts → ctxInv (scanLines st lines).contexts := by
  induction lines with
  | nil => exact fun st h => h
  | cons l ls ih => exact fun st h => ih _ (processLine_ctxInv st l h)

/-! ## Aggregation lemmas -/

theorem insertSummary_length (s : PackGuardSummary) (l : List PackGuardSummary) :
    (insertSummary s l).length = l.length + 1 := by
  induction l with
  | nil => rfl
  | cons t ts ih =>
    unfold insertSummary
    split_ifs <;> simp [ih]

theorem sortBySeverity_length (l : List PackGuardSummary) :
    (sortBySeverity l).length = l.length := by
  unfold sortBySeverity
  induction l with
  | nil => rfl
  | cons s ls ih => simp [List.foldr_cons, insertSummary_length, ih]

theorem keepFirstByKey_cons (s : PackGuardSummary) (rest : List PackGuardSummary) :
    keepFirstByKey (s :: rest) =
      s :: keepFirstByKey (rest.filter fun t => dedupKey t ≠ dedupKey s) := by
  rw [keepFirstByKey]

theorem dedupAux_eq_keepFirst (l : List PackGuardSummary) :
    ∀ seen : List String,
      dedupAux seen l = keepFirstByKey (l.filter fun s => !(seen.contains (dedupKey s))) := by
  induction l with
  | nil => intro seen; simp [dedupAux, keepFirstByKey]
  | cons s rest ih =>
    intro seen
    by_cases h : dedupKey s ∈ seen
    · rw [dedupAux, if_pos (by simpa using h), ih seen]
      congr 1
      simp [List.filter_cons, h]
    · rw [dedupAux, if_neg (by simpa using h), ih (dedupKey s :: seen)]
      have hfilter : (s :: rest).filter (fun t => !(seen.contains (dedupKey t))) =
          s :: rest.filter (fun t => !(seen.contains (dedupKey t))) := by
        simp [List.filter_cons, h]
      rw [hfilter, keepFirstByKey_cons]
      congr 1
      rw [List.filter_filter]
      congr 1
      apply List.filter_congr
      intro t ht
      by_cases hts : dedupKey t = dedupKey s <;>
        by_cases htm : dedupKey t ∈ seen <;>
        simp [hts, htm, List.contains_cons]

theorem dedupSummaries_eq_keepFirst (l : List PackGuardSummary) :
    dedupSummaries l = keepFirstByKey l := by
  unfold dedupSummaries
  rw [dedupAux_eq_keepFirst]
  congr 1
  simp

/-! ## The claims -/

/-! ## Claim C1 -/

/-- The scenario file of claim C1: the marker line followed by the quoted
pack/spec lines. -/
def c1Text : String :=
  "config_guard_spec\npack:\n  id: demo\n  version: 1.0.0\nspec:\n  namespace: core\n  environment: prod\n  required_env:\n    - name: API_KEY\n      present: false\n  rotations:\n    - last_rotated_days: 120\n      max_days: 90\n"

/-- Claim C1: on a readable file containing the marker plus the scenario
lines, `parseConfigGuardFile` returns the summary with id `demo`, version
`1.0.0`, namespace `core`, environment `prod`, and all four counters 1. -/
theorem c1_scenario_summary :
    parseConfigGuardFile (fun _ => some c1Text) "pack.yaml" =
      some { id := "demo", version := "1.0.0", nspace := some "core",
             environment := some "prod", envCount := 1, missingEnv := 1,
             secretsCount := 1, staleSecrets := 1 } := by
  decide

/-! ## Claim C2 -/

/-- Counterexample to claim C2: the file content `xconfig_guard_spec`
contains the literal substring `config_guard_spec`, yet the summarizer
returns nothing, because the admission test is the word-boundary regex
`/\bconfig_guard_spec\b/` and `x` is a word character. -/
theorem c2_counterexample :
    parseConfigGuardFile (fun _ => some "xconfig_guard_spec") "a.yaml" = none ∧
    containsSubstring "config_guard_spec" "xconfig_guard_spec" = true := by
  decide

/-- Claim C2 (amended): for every readable file, `parseConfigGuardFile`
produces a summary if and only if the content matches
`/\bconfig_guard_spec\b/`, i.e. contains an occurrence of
`config_guard_spec` that is not adjacent to a word character. -/
theorem c2_summary_iff_marker (readFile : String → Option String)
    (p t : String) (h : readFile p = some t) :
    (parseConfigGuardFile readFile p).isSome = hasMarker t := by
  unfold parseConfigGuardFile
  rw [h]
  unfold parseConfigGuardText
  cases hm : hasMarker t <;> simp [hm]

theorem c2_summary_iff_marker_witness :
    (parseConfigGuardFile (fun _ => some "config_guard_spec") "w.yaml").isSome =
      hasMarker "config_guard_spec" :=
  c2_summary_iff_marker (fun _ => some "config_guard_spec") "w.yaml"
    "config_guard_spec" rfl

/-! ## Claim C3 -/

/-- Counterexample to claim C3: with no registry root, no local-packs root
and no readable files, no summaries qualify and `summarizeConfigGuardLite`
returns `null` — not a report with `totalPacks = 0` and an empty pack list. -/
theorem c3_counterexample :
    summarizeConfigGuardLite ⟨none, none, fun _ => none⟩ = none := by
  decide

/-- Claim C3 (amended): `summarizeConfigGuardLite` is total over the
modelled filesystem and returns `null` exactly when no summaries qualify;
whenever it returns a report, that report covers all qualifying summaries
and has `totalPacks > 0` (a `totalPacks = 0` report is never produced). -/
theorem c3_null_iff_no_summaries (fs : FS) :
    (summarizeConfigGuardLite fs = none ↔ qualifyingSummaries fs = []) ∧
    (∀ r : AggregateReport, summarizeConfigGuardLite fs = some r →
      r.totalPacks = (qualifyingSummaries fs).length ∧ 0 < r.totalPacks ∧
      r.packs.length = r.totalPacks) := by
  unfold summarizeConfigGuardLite
  dsimp only
  cases h : qualifyingSummaries fs with
  | nil => simp
  | cons a l =>
    constructor
    · simp [List.isEmpty]
    · intro r hr
      simp only [List.isEmpty, if_false] at hr
      rw [← Option.some_inj.mp hr]
      simp [sortBySeverity_length, h]

theorem c3_null_iff_no_summaries_witness :
    qualifyingSummaries ⟨none, none, fun _ => none⟩ = [] :=
  (c3_null_iff_no_summaries ⟨none, none, fun _ => none⟩).1.mp (by decide)

/-! ## Claim C4 -/

/-- Counterexample to claim C4: the dedup key is the string
`id + "@" + version`, so the distinct pairs `("a@b", "c")` and
`("a", "b@c")` collide and the second summary is dropped, although the two
`(id, version)` pairs differ. -/
theorem c4_counterexample :
    dedupSummaries
        [{ id := "a@b", version := "c", nspace := none, environment := none,
           envCount := 0, missingEnv := 0, secretsCount := 0, staleSecrets := 0 },
         { id := "a", version := "b@c", nspace := none, environment := none,
           envCount := 0, missingEnv := 0, secretsCount := 0, staleSecrets := 0 }] =
      [{ id := "a@b", version := "c", nspace := none, environment := none,
         envCount := 0, missingEnv := 0, secretsCount := 0, staleSecrets := 0 }] ∧
    ("a@b" : String) ≠ "a" := by
  decide

/-- Claim C4 (amended): aggregation keeps exactly the first summary for each
distinct key string `id + "@" + version` and drops every later summary with
the same key; summaries with equal `(id, version)` pairs always share a key
(so true duplicates are always dropped), but two summaries whose pairs
differ may still collide when `id`/`version` contain `@`. -/
theorem c4_dedup_first_per_key :
    (∀ l : List PackGuardSummary, dedupSummaries l = keepFirstByKey l) ∧
    (∀ s t : PackGuardSummary, s.id = t.id → s.version = t.version →
      dedupKey s = dedupKey t) := by
  constructor
  · exact dedupSummaries_eq_keepFirst
  · intro s t h1 h2
    unfold dedupKey
    rw [h1, h2]

theorem c4_dedup_first_per_key_witness :
    dedupSummaries
        [{ id := "p", version := "1", nspace := none, environment := none,
           envCount := 0, missingEnv := 0, secretsCount := 0, staleSecrets := 0 },
         { id := "p", version := "1", nspace := none, environment := none,
           envCount := 3, missingEnv := 1, secretsCount := 0, staleSecrets := 0 }] =
      keepFirstByKey
        [{ id := "p", version := "1", nspace := none, environment := none,
           envCount := 0, missingEnv := 0, secretsCount := 0, staleSecrets := 0 },
         { id := "p", version := "1", nspace := none, environment := none,
           envCount := 3, missingEnv := 1, secretsCount := 0, staleSecrets := 0 }] ∧
    dedupKey { id := "p", version := "1", nspace := none, environment := none,
               envCount := 0, missingEnv := 0, secretsCount := 0, staleSecrets := 0 } =
      dedupKey { id := "p", version := "1", nspace := none, environment := none,
                 envCount := 3, missingEnv := 1, secretsCount := 0, staleSecrets := 0 } :=
  ⟨c4_dedup_first_per_key.1 _, c4_dedup_first_per_key.2 _ _ rfl rfl⟩

/-! ## Claim C5 -/

/-- Counterexample to claim C5: a file whose only content besides the marker
is a mapping key literally named `required_env-item` with a `present: false`
line under it.  The resulting summary has `envCount = 0` but
`missingEnv = 1`, refuting `envCount >= missingEnv`. -/
theorem c5_counterexample :
    parseConfigGuardText "e.yaml"
        "config_guard_spec\nrequired_env-item:\n  present: false\n" =
      some { id := "e", version := "0.0.0", nspace := none, environment := none,
             envCount := 0, missingEnv := 1, secretsCount := 0,
             staleSecrets := 0 } := by
  decide

/-- Claim C5 (amended): every summary produced by the per-file parser
satisfies `secretsCount ≥ staleSecrets` (and all four counters are naturals,
hence `≥ 0`); the `envCount ≥ missingEnv` half of the claim is refuted by
the counterexample. -/
theorem c5_stale_le_secrets (p t : String) (s : PackGuardSummary)
    (h : parseConfigGuardText p t = some s) :
    s.staleSecrets ≤ s.secretsCount := by
  unfold parseConfigGuardText at h
  cases hm : hasMarker t with
  | false => rw [hm] at h; simp at h
  | true =>
    rw [hm] at h
    simp only [Bool.not_true, if_false] at h
    have hinv : (scanLines {} (splitLines t)).secretsCount =
        (scanLines {} (splitLines t)).rotationEntries.length :=
      scanLines_secrets (splitLines t) {} rfl
    rw [← Option.some_inj.mp h]
    dsimp only
    rw [hinv]
    exact List.length_filter_le _ _

theorem c5_stale_le_secrets_witness :
    ({ id := "w", version := "0.0.0", nspace := none, environment := none,
       envCount := 0, missingEnv := 0, secretsCount := 0,
       staleSecrets := 0 } : PackGuardSummary).staleSecrets ≤
      ({ id := "w", version := "0.0.0", nspace := none, environment := none,
         envCount := 0, missingEnv := 0, secretsCount := 0,
         staleSecrets := 0 } : PackGuardSummary).secretsCount :=
  c5_stale_le_secrets "w.yaml" "config_guard_spec" _ (by decide)

/-! ## Claim C6 -/

/-- Rotation-field routing: on a `last_rotated_days` key with a rotation
acting frame aliasing shared entry `i`, that entry's `last` field becomes
exactly `parseNumber value`. -/
theorem handleConfigKey_rotation_last (st : PState) (v : String) (c : Ctx)
    (rest : List Ctx) (entries : List Rot) (i : Nat)
    (hact : actingRot (some c) = true) (hrot : c.rot = some (RotRef.shared i))
    (hi : i < entries.length) :
    ((handleConfigKey st "last_rotated_days" v (c :: rest) entries).2.2.getD i
        { last := none, max := none }).last = parseNumber v := by
  unfold handleConfigKey
  dsimp only
  have hne : ¬ (("last_rotated_days" : String) = "max_days") := by decide
  have hpos : actingRot (c :: rest).head? ∧
      ("last_rotated_days" : String) = "last_rotated_days" := ⟨hact, rfl⟩
  rw [if_neg (fun hc => hne hc.2), if_pos hpos]
  unfold applyRotField
  dsimp only
  rw [hrot]
  dsimp only
  rw [getD_set_self _ _ _ _ hi]
  simp [updRot]

/-- Rotation-field routing for `max_days`, symmetric to
`handleConfigKey_rotation_last`. -/
theorem handleConfigKey_rotation_max (st : PState) (v : String) (c : Ctx)
    (rest : List Ctx) (entries : List Rot) (i : Nat)
    (hact : actingRot (some c) = true) (hrot : c.rot = some (RotRef.shared i))
    (hi : i < entries.length) :
    ((handleConfigKey st "max_days" v (c :: rest) entries).2.2.getD i
        { last := none, max := none }).max = parseNumber v := by
  unfold handleConfigKey
  dsimp only
  have hne : ¬ (("max_days" : String) = "last_rotated_days") := by decide
  have hpos : actingRot (c :: rest).head? ∧
      ("max_days" : String) = "max_days" := ⟨hact, rfl⟩
  rw [if_pos hpos, if_neg (fun hc => hne hc.2)]
  unfold applyRotField
  dsimp only
  rw [hrot]
  dsimp only
  rw [getD_set_self _ _ _ _ hi]
  simp [updRot]

/-- Claim C6: a `last_rotated_days`/`max_days` value is stored as
`parseNumber value`, so a failed parse stores the unset marker `none`
(never zero); an entry counts as stale exactly when both fields are set and
`last > max`, so an entry with an unset field never counts; and the
summary's `staleSecrets` is the number of stale entries of the scan. -/
theorem c6_rotation_parse_and_staleness :
    (∀ (st : PState) (v : String) (c : Ctx) (rest : List Ctx)
        (entries : List Rot) (i : Nat),
      actingRot (some c) = true → c.rot = some (RotRef.shared i) →
      i < entries.length →
      ((handleConfigKey st "last_rotated_days" v (c :: rest) entries).2.2.getD i
          { last := none, max := none }).last = parseNumber v ∧
      ((handleConfigKey st "max_days" v (c :: rest) entries).2.2.getD i
          { last := none, max := none }).max = parseNumber v) ∧
    (∀ e : Rot, stalePred e = true ↔
      ∃ a b : ℚ, e.last = some a ∧ e.max = some b ∧ b < a) ∧
    (∀ (p t : String) (s : PackGuardSummary), parseConfigGuardText p t = some s →
      s.staleSecrets =
        ((scanLines {} (splitLines t)).rotationEntries.filter stalePred).length) := by
  refine ⟨?_, ?_, ?_⟩
  · intro st v c rest entries i hact hrot hi
    exact ⟨handleConfigKey_rotation_last st v c rest entries i hact hrot hi,
           handleConfigKey_rotation_max st v c rest entries i hact hrot hi⟩
  · intro e
    unfold stalePred
    cases hl : e.last with
    | none => simp
    | some a =>
      cases hm : e.max with
      | none => simp
      | some b => simp
  · intro p t s h
    unfold parseConfigGuardText at h
    cases hm : hasMarker t with
    | false => rw [hm] at h; simp at h
    | true =>
      rw [hm] at h
      simp only [Bool.not_true, if_false] at h
      rw [← Option.some_inj.mp h]

theorem c6_rotation_parse_and_staleness_witness :
    ((handleConfigKey {} "last_rotated_days" "oops"
        [{ key := "rotations-item", indent := 4, ctype := some CtxType.rotation,
           rot := some (RotRef.shared 0) }]
        [{ last := none, max := none }]).2.2.getD 0
      { last := none, max := none }).last = parseNumber "oops" :=
  (c6_rotation_parse_and_staleness.1 {} "oops"
    { key := "rotations-item", indent := 4, ctype := some CtxType.rotation,
      rot := some (RotRef.shared 0) }
    [] [{ last := none, max := none }] 0 (by decide) rfl (by decide)).1

/-! ## Claim C7 -/

/-- Counterexample to claim C7: the inline list item `- version:` under
`pack:` writes the empty string into `packVersion` (first write), yet the
later `version: 9.9.9` line overwrites it, because the first-write guard is
the JS falsiness test `!state.packVersion` and the empty string is falsy. -/
theorem c7_counterexample :
    (scanLines {} ["pack:", "  - version:"]).state.packVersion = some "" ∧
    (scanLines {} ["pack:", "  - version:", "  version: 9.9.9"]).state.packVersion =
      some "9.9.9" := by
  decide

/-- Claim C7 (amended): an identity field holding a non-empty value is never
changed by any later line of the same scan; first write wins except when the
stored value is falsy (null or the empty string), in which case a later
write is still accepted. -/
theorem c7_nonempty_first_write_wins (st : ScanState) (lines : List String)
    (w : String) (hw : w ≠ "") :
    (st.state.packId = some w → (scanLines st lines).state.packId = some w) ∧
    (st.state.packVersion = some w → (scanLines st lines).state.packVersion = some w) ∧
    (st.state.nspace = some w → (scanLines st lines).state.nspace = some w) ∧
    (st.state.environment = some w → (scanLines st lines).state.environment = some w) :=
  scanLines_persist lines w hw st

theorem c7_nonempty_first_write_wins_witness :
    (scanLines { contexts := [], rotationEntries := [],
                 state := { packId := some "keep", packVersion := none,
                            nspace := none, environment := none, missingEnv := 0 },
                 envCount := 0, secretsCount := 0 }
        ["pack:", "  id: other"]).state.packId = some "keep" :=
  (c7_nonempty_first_write_wins _ ["pack:", "  id: other"] "keep" (by decide)).1 rfl

/-! ## Claim C8 -/

/-- Claim C8: with a strictly increasing stack (modelled head-first, so
strictly decreasing from the head), the pop loop removes exactly the frames
whose `indent` is at least the incoming line's indent (non-strict dedent);
and every stack reachable by scanning lines from the initial state is
strictly increasing in `indent` from bottom to top. -/
theorem c8_nonstrict_dedent_invariant :
    (∀ (i : Nat) (cs : List Ctx), ctxInv cs →
      popFrames i cs = cs.filter fun c => decide (c.indent < i)) ∧
    (∀ lines : List String, ctxInv ((scanLines {} lines).contexts)) := by
  constructor
  · exact popFrames_filter
  · intro lines
    refine scanLines_ctxInv lines {} ?_
    unfold ctxInv
    simp

theorem c8_nonstrict_dedent_invariant_witness :
    popFrames 2 [{ key := "a", indent := 3 }, { key := "b", indent := 1 }] =
      List.filter (fun c => decide (c.indent < 2))
        [{ key := "a", indent := 3 }, { key := "b", indent := 1 }] :=
  c8_nonstrict_dedent_invariant.1 2
    [{ key := "a", indent := 3 }, { key := "b", indent := 1 }]
    (by unfold ctxInv; simp)

/-! ## Claim C9 -/

/-- Counterexample to claim C9: a file child named `secrets.yml` carries a
markup extension (`.yml`), yet the local-packs scanner does not return it —
the source tests only for the `.yaml` suffix. -/
theorem c9_counterexample :
    collectLocalConfigGuardPacks "packs/config-guard"
        (some [{ name := "secrets.yml", kind := EntryKind.file }]) = [] ∧
    jsEndsWith "secrets.yml" ".yml" = true := by
  decide

/-- Claim C9 (amended): a nonexistent local root yields the empty list, and
the scanner returns exactly the immediate children that are files whose name
ends in `.yaml` (not `.yml`), each joined to the root path. -/
theorem c9_local_children_yaml_only :
    (∀ root : String, collectLocalConfigGuardPacks root none = []) ∧
    (∀ (root p : String) (entries : List DirEntry),
      p ∈ collectLocalConfigGuardPacks root (some entries) ↔
        ∃ e ∈ entries, e.kind = EntryKind.file ∧ jsEndsWith e.name ".yaml" = true ∧
          p = pathJoin root e.name) := by
  constructor
  · intro root; rfl
  · intro root p entries
    unfold collectLocalConfigGuardPacks
    rw [List.mem_filterMap]
    constructor
    · rintro ⟨e, he, hfe⟩
      by_cases hc : e.kind = EntryKind.file ∧ jsEndsWith e.name ".yaml" = true
      · rw [if_pos hc] at hfe
        exact ⟨e, he, hc.1, hc.2, (Option.some_inj.mp hfe).symm⟩
      · rw [if_neg hc] at hfe
        exact absurd hfe (by simp)
    · rintro ⟨e, he, hk, hy, rfl⟩
      exact ⟨e, he, by rw [if_pos ⟨hk, hy⟩]⟩

theorem c9_local_children_yaml_only_witness :
    collectLocalConfigGuardPacks "packs/config-guard" none = [] :=
  c9_local_children_yaml_only.1 "packs/config-guard"

/-! ## Claim C10 -/

/-- The C10 scenario: a mapping key literally spelled `required_env-item:`
(no list item, so `envCount` stays 0 for it) with two `present` lines whose
values contain `false` case-insensitively, then a genuine `required_env`
list item with two such lines. -/
def c10Text : String :=
  "config_guard_spec\nrequired_env-item:\n  present: false\n  present: FALSEY\nrequired_env:\n  - present: false\n    present: also false\n"

/-- Claim C10: `present` routing depends only on the acting frame's name or
role — `missingEnv` grows by exactly one per qualifying `present` line
(frame named `required_env-item` or with env role, value containing `false`
case-insensitively) and by zero otherwise; on the scenario file this yields
`missingEnv = 4` with `envCount = 1`. -/
theorem c10_present_routing :
    (∀ (st : PState) (k v : String) (cs : List Ctx) (es : List Rot),
      (handleConfigKey st k v cs es).1.missingEnv =
        st.missingEnv +
          (if actingEnv cs.head? ∧ k = "present" ∧ testFalseCI v then 1 else 0)) ∧
    parseConfigGuardText "guards.yaml" c10Text =
      some { id := "guards", version := "0.0.0", nspace := none,
             environment := none, envCount := 1, missingEnv := 4,
             secretsCount := 0, staleSecrets := 0 } := by
  constructor
  · exact handleConfigKey_missingEnv
  · decide

end ConfigGuard
